import Mathlib

set_option maxHeartbeats 4000000
set_option maxRecDepth 8000

/-
Shallow embedding of the discovery-and-extraction pipeline of src/app.py
(Wood Couture AI Market Scout).

External collaborators (the SERPER search API, the HTTP fetcher, the
BeautifulSoup HTML parser, the readability library, urljoin and the LLM
summarizer) are modelled as components of an explicit dependency record
`Deps`; the pipeline's own logic (contact extraction, link classification,
blacklists, the two search flows) is translated function by function from
the source.  Python semantics that the source relies on are modelled
explicitly:

* Python `set` objects: the inserted content (first-insertion order,
  duplicates dropped) is tracked as a `List String` via `pyInsert` /
  `pyExtend`; the arbitrary, hash-dependent iteration order that
  `list(someSet)` produces is modelled by the `Deps.enum` component,
  constrained only by `SetEnum` (it returns a permutation of the content).
* `re.findall` / `re.search` for the three regexes of the source are
  implemented as explicit scanners with Python's leftmost, greedy,
  backtracking, non-overlapping semantics (ASCII character classes).
* Python string helpers (`strip`, `lower`, `split`, `join`, `capitalize`,
  substring `in`) are implemented over `List Char`.
-/

/-! ## Python string helpers -/

/-- The `\s` class of Python's `re` module, restricted to ASCII
(space, tab, newline, carriage return, vertical tab, form feed). -/
def isSpaceChar (c : Char) : Bool :=
  c == ' ' || c == '\t' || c == '\n' || c == '\r' || c == Char.ofNat 11 || c == Char.ofNat 12

/-- Python `str.strip()` (ASCII whitespace). -/
def pyStrip (s : String) : String :=
  String.mk (((s.data.dropWhile isSpaceChar).reverse.dropWhile isSpaceChar).reverse)

/-- Python `str.lower()` (ASCII). -/
def pyLower (s : String) : String :=
  String.mk (s.data.map Char.toLower)

/-- Python `str.startswith(p)`. -/
def pyStartsWith (s p : String) : Bool :=
  p.data.isPrefixOf s.data

/-- Python substring containment `pat in s`. -/
def strContains (s pat : String) : Bool :=
  (List.range (s.data.length + 1)).any (fun i => pat.data.isPrefixOf (s.data.drop i))

/-- Worker for `pySplit` (fuel bounds the scan; each step consumes input). -/
def pySplitAux (sep : List Char) : Nat → List Char → List Char → List (List Char)
  | 0, acc, rest => [acc.reverse ++ rest]
  | fuel + 1, acc, rest =>
    if sep.isPrefixOf rest then
      acc.reverse :: pySplitAux sep fuel [] (rest.drop sep.length)
    else
      match rest with
      | [] => [acc.reverse]
      | c :: cs => pySplitAux sep fuel (c :: acc) cs

/-- Python `s.split(sep)` for a non-empty separator. -/
def pySplit (s sep : String) : List String :=
  (pySplitAux sep.data (s.data.length + 1) [] s.data).map String.mk

/-- Python `sep.join(l)`. -/
def pyJoin (sep : String) : List String → String
  | [] => ""
  | [x] => x
  | x :: y :: xs => x ++ sep ++ pyJoin sep (y :: xs)

/-- Python `str.capitalize()`: first character upper-cased, rest lower-cased. -/
def pyCapitalize (s : String) : String :=
  match s.data with
  | [] => ""
  | c :: cs => String.mk (c.toUpper :: cs.map Char.toLower)

/-! ## Python set model -/

/-- `someSet.add(x)` on the insertion-ordered content of a Python set. -/
def pyInsert (s : List String) (x : String) : List String :=
  if x ∈ s then s else s ++ [x]

/-- `someSet.update(xs)`: insert every element of `xs` in order. -/
def pyExtend (s : List String) (xs : List String) : List String :=
  xs.foldl pyInsert s

/-- Admissibility of a model of CPython's `list(someSet)` conversion: on a
duplicate-free content list it returns some permutation of the elements.
CPython's actual order depends on the per-process string-hash seed, so
nothing more may be assumed about it. -/
def SetEnum (f : List String → List String) : Prop :=
  ∀ s : List String, s.Nodup → (f s).Perm s

/-! ## The three regexes of the source, as explicit scanners -/

/-- Local-part class of the email regex `[a-zA-Z0-9._%+-]`. -/
def isLocalChar (c : Char) : Bool :=
  c.isAlpha || c.isDigit || c == '.' || c == '_' || c == '%' || c == '+' || c == '-'

/-- Domain class of the email regex `[a-zA-Z0-9.-]`. -/
def isDomainChar (c : Char) : Bool :=
  c.isAlpha || c.isDigit || c == '.' || c == '-'

/-- The TLD candidate after position `j` of the domain run: maximal run of
letters, for `[a-zA-Z]{2,}` (greedy, nothing follows it in the pattern). -/
def emailTldAt (dom : List Char) (j : Nat) : List Char :=
  (dom.drop (j + 1)).takeWhile (fun c => c.isAlpha)

/-- Greedy backtracking of `[a-zA-Z0-9.-]+\.[a-zA-Z]{2,}` over the maximal
domain-character run `dom`: the largest `j ≥ 1` such that `dom[j] = '.'`
and at least two letters follow. -/
def emailDotSearch (dom : List Char) : Nat → Option (Nat × List Char)
  | 0 => none
  | j + 1 =>
    if dom.getD (j + 1) ' ' == '.' ∧ 2 ≤ (emailTldAt dom (j + 1)).length then
      some (j + 1, emailTldAt dom (j + 1))
    else emailDotSearch dom j

/-- One anchored match attempt of
`[a-zA-Z0-9._%+-]+@[a-zA-Z0-9.-]+\.[a-zA-Z]{2,}` at the head of `cs`.
Returns the matched characters and the rest of the input. -/
def emailAttempt (cs : List Char) : Option (List Char × List Char) :=
  let lp := cs.takeWhile isLocalChar
  if lp.isEmpty then none
  else
    match cs.drop lp.length with
    | '@' :: rest =>
      let dom := rest.takeWhile isDomainChar
      match emailDotSearch dom (dom.length - 1) with
      | some (j, tld) => some (lp ++ '@' :: (dom.take j ++ '.' :: tld), rest.drop (j + 1 + tld.length))
      | none => none
    | _ => none

/-- `re.findall` scan loop for the email regex: try each position left to
right, continue after the end of each (non-overlapping) match. -/
def emailFindAllAux : Nat → List Char → List String
  | 0, _ => []
  | _ + 1, [] => []
  | fuel + 1, c :: cs =>
    match emailAttempt (c :: cs) with
    | some (m, rest) => String.mk m :: emailFindAllAux fuel rest
    | none => emailFindAllAux fuel cs

/-- `re.findall(r"[a-zA-Z0-9._%+-]+@[a-zA-Z0-9.-]+\.[a-zA-Z]{2,}", s)`. -/
def emailFindAll (s : String) : List String :=
  emailFindAllAux (s.data.length + 1) s.data

/-- Body class `[\d\s\-().]` of the contact-page phone regex. -/
def isContactPhoneBody (c : Char) : Bool :=
  c.isDigit || isSpaceChar c || c == '-' || c == '(' || c == ')' || c == '.'

/-- Body class `[\d\s\-]` of the LinkedIn phone regex. -/
def isLinkedinPhoneBody (c : Char) : Bool :=
  c.isDigit || isSpaceChar c || c == '-'

/-- Greedy backtracking of `BODY{7,}\d` over the maximal body run `R`: the
largest `k ≥ 7` with a digit at `R[k]`. -/
def phoneDigitSearch (R : List Char) : Nat → Option Nat
  | 0 => none
  | k + 1 =>
    if 7 ≤ k + 1 ∧ (R.getD (k + 1) ' ').isDigit then some (k + 1)
    else phoneDigitSearch R k

/-- One anchored match attempt of `\+?\d BODY{7,} \d` at the head of `cs`. -/
def phoneAttempt (body : Char → Bool) (cs : List Char) : Option (List Char × List Char) :=
  let pre : List Char × List Char :=
    match cs with
    | '+' :: rest => (['+'], rest)
    | _ => ([], cs)
  match pre.2 with
  | d :: rest =>
    if d.isDigit then
      let R := rest.takeWhile body
      match phoneDigitSearch R (R.length - 1) with
      | some k => some (pre.1 ++ d :: R.take (k + 1), rest.drop (k + 1))
      | none => none
    else none
  | [] => none

/-- `re.findall` scan loop for a phone regex. -/
def phoneFindAllAux (body : Char → Bool) : Nat → List Char → List String
  | 0, _ => []
  | _ + 1, [] => []
  | fuel + 1, c :: cs =>
    match phoneAttempt body (c :: cs) with
    | some (m, rest) => String.mk m :: phoneFindAllAux body fuel rest
    | none => phoneFindAllAux body fuel cs

/-- `re.findall(r'(\+?\d[\d\s\-().]{7,}\d)', s)` (the single group is the
whole match). -/
def phoneFindAll (s : String) : List String :=
  phoneFindAllAux isContactPhoneBody (s.data.length + 1) s.data

/-- `re.search` for a phone regex: the first match in the findall scan. -/
def phoneSearchFirst (body : Char → Bool) (s : String) : Option String :=
  (phoneFindAllAux body (s.data.length + 1) s.data).head?

/-- Capture class `[A-Za-z0-9,\s\-]` of the Location regex. -/
def isLocCapChar (c : Char) : Bool :=
  c.isAlpha || c.isDigit || c == ',' || isSpaceChar c || c == '-'

/-- `\s*([A-Za-z0-9,\s\-]+)` with backtracking: take the maximal whitespace
run, then the maximal capture run; if the capture would be empty, give one
whitespace character back to it (Python backtracks the rightmost `\s*`
first, and a single whitespace character is in the capture class). -/
def locCapAfterWs (r : List Char) : Option (List Char) :=
  let w := r.takeWhile isSpaceChar
  let cap := (r.drop w.length).takeWhile isLocCapChar
  if cap.isEmpty then
    if w.isEmpty then none else some [w.getLastD ' ']
  else some cap

/-- One anchored match attempt of
`Location\s*[:\-]?\s*([A-Za-z0-9,\s\-]+)`; returns group 1.  The optional
`[:\-]` is tried greedily and dropped on failure; on total failure the
first `\s*` gives its last character to the capture. -/
def locAttempt (cs : List Char) : Option (List Char) :=
  if ("Location".data).isPrefixOf cs then
    let r0 := cs.drop 8
    let w1 := r0.takeWhile isSpaceChar
    let r1 := r0.drop w1.length
    let afterPunct : Option (List Char) :=
      match r1 with
      | c :: rest =>
        if c == ':' || c == '-' then
          match locCapAfterWs rest with
          | some g => some g
          | none => locCapAfterWs r1
        else locCapAfterWs r1
      | [] => locCapAfterWs r1
    match afterPunct with
    | some g => some g
    | none => if w1.isEmpty then none else some [w1.getLastD ' ']
  else none

/-- `re.search` scan loop for the Location regex. -/
def locSearchAux : Nat → List Char → Option String
  | 0, _ => none
  | _ + 1, [] => none
  | fuel + 1, c :: cs =>
    match locAttempt (c :: cs) with
    | some g => some (String.mk g)
    | none => locSearchAux fuel cs

/-- `re.search(r'Location\s*[:\-]?\s*([A-Za-z0-9,\s\-]+)', s)`, group 1. -/
def locSearch (s : String) : Option String :=
  locSearchAux (s.data.length + 1) s.data

/-! ## Data model and external dependencies -/

/-- An `<a href=...>` anchor as produced by `soup.find_all("a", href=True)`:
its visible text and its `href` attribute, in document order. -/
structure Anchor where
  text : String
  href : String
  deriving DecidableEq

/-- One organic result of the SERPER search API: `result.get('title', '')`
and `result.get('link')` (absent key modelled as `none`). -/
structure SearchHit where
  title : String
  link : Option String
  deriving DecidableEq

/-- The dict value `manufacturers[company_name]` of `general_search`
(lines 322-326 of src/app.py). -/
structure MInfo where
  company : String
  website : String
  linkedin : Option String
  deriving DecidableEq

/-- One emitted result dict (the CompanyRecord of the spec):
lines 370-380 / 418-428 of src/app.py. -/
structure Record where
  company : String
  linkedin : Option String
  website : String
  phone : Option String
  email : Option String
  location : Option String
  all_emails : List String
  all_phones : List String
  summary : String
  deriving DecidableEq

/-- The external collaborators of the pipeline, fixed for one run:
`search q off` models `google_search(q, off)` (`none` = error response or
missing `'organic'` key); `fetch` models `get_website_content` (empty
string = all retries failed); `parse` models BeautifulSoup's anchor
extraction on a page; `readability` models `Document(html).summary()`
(`Except.error` = the readability step raised); `get_text` models
`BeautifulSoup(x).get_text(separator=" ", strip=True)`; `urljoin` models
`urllib.parse.urljoin`; `summarize` models the LLM summary call (name,
content); `enum` models `list(someSet)` (see `SetEnum`). -/
structure Deps where
  search : String → Nat → Option (List SearchHit)
  fetch : String → String
  parse : String → List Anchor
  readability : String → Except Unit String
  get_text : String → String
  urljoin : String → String → String
  summarize : String → String → String
  enum : List String → List String

/-! ## Content extractor (src/app.py lines 59-99) -/

/-- `extract_main_content` (lines 60-69): readability isolation, falling
back to full-document text extraction only when the isolation raises. -/
def extract_main_content (d : Deps) (html : String) : String :=
  match d.readability html with
  | Except.ok summary_html => d.get_text summary_html
  | Except.error _ => d.get_text html

/-- The mailto-derived email candidates of `extract_contact_details`
(lines 78-83): for each anchor whose href starts with `mailto:`, the text
between the prefix and the first `?`, stripped; empty results dropped. -/
def mailto_targets (d : Deps) (html : String) : List String :=
  (d.parse html).filterMap (fun a =>
    if pyStartsWith a.href "mailto:" then
      let email := pyStrip ((pySplit ((pySplit a.href "mailto:").getD 1 "") "?").getD 0 "")
      if email ≠ "" then some email else none
    else none)

/-- Content of the `emails` set of `extract_contact_details` (lines 73-89):
the mailto targets are added first, then every regex match over the raw
markup is added unconditionally. -/
def contact_emails_content (d : Deps) (html : String) : List String :=
  pyExtend (pyExtend [] (mailto_targets d html)) (emailFindAll html)

/-- The character class removed by `re.sub(r'[\s\-().]+', '', phone)`. -/
def isPhonePunct (c : Char) : Bool :=
  isSpaceChar c || c == '-' || c == '(' || c == ')' || c == '.'

/-- `len(re.sub(r'[\s\-().]+', '', phone))`. -/
def phone_sig_len (p : String) : Nat :=
  (p.data.filter (fun c => !(isPhonePunct c))).length

/-- Content of the `phones` set of `extract_contact_details` (lines 91-97):
regex matches over the raw markup, kept when at least 7 significant
characters remain, stripped.  No `tel:` anchors are consulted. -/
def contact_phones_content (html : String) : List String :=
  pyExtend [] ((phoneFindAll html).filterMap (fun p =>
    if 7 ≤ phone_sig_len p then some (pyStrip p) else none))

/-- `extract_contact_details` (lines 72-99): returns
`list(emails), list(phones)` — enumerations of the two sets. -/
def extract_contact_details (d : Deps) (html : String) : List String × List String :=
  (d.enum (contact_emails_content d html), d.enum (contact_phones_content html))

/-! ## Link classifier and site scraper (lines 101-150) -/

/-- Per-anchor body of `find_relevant_links` (lines 105-111): for each
keyword contained in the anchor's lower-cased stripped text and not yet
mapped, record the href resolved against the base URL. -/
def find_links_step (d : Deps) (base_url : String) (keywords : List String)
    (links : List (String × String)) (a : Anchor) : List (String × String) :=
  let link_text := pyLower (pyStrip a.text)
  keywords.foldl (fun links kw =>
    if strContains link_text kw = true ∧ kw ∉ links.map Prod.fst then
      links ++ [(kw, d.urljoin base_url a.href)]
    else links) links

/-- `find_relevant_links` (lines 102-112); the dict is modelled as an
association list in insertion order (Python dicts preserve it). -/
def find_relevant_links (d : Deps) (home_html base_url : String) (keywords : List String) :
    List (String × String) :=
  (d.parse home_html).foldl (find_links_step d base_url keywords) []

/-- The fixed keyword list of `scrape_manufacturer_website` (line 125). -/
def scrape_keywords : List String :=
  ["about", "products", "contact", "contact us", "services", "portfolio", "get in touch"]

/-- Per-link body of the scrape loop (lines 136-145): fetch the page; on
success append its section and fold its contact details into the sets. -/
def scrape_page_fold (d : Deps) (acc : List (String × String) × List String × List String)
    (kl : String × String) : List (String × String) × List String × List String :=
  let page_html := d.fetch kl.2
  if page_html = "" then acc
  else
    let page_content := extract_main_content d page_html
    let pe := extract_contact_details d page_html
    (acc.1 ++ [(pyCapitalize kl.1, page_content)], pyExtend acc.2.1 pe.1, pyExtend acc.2.2 pe.2)

/-- `scrape_manufacturer_website` (lines 115-150).  The section dict is an
association list; its keys ("Homepage", "Contact Details", capitalized
keywords) never collide, so appending is faithful to dict insertion. -/
def scrape_manufacturer_website (d : Deps) (website_url : String) :
    String × List String × List String :=
  let homepage_html := d.fetch website_url
  if homepage_html = "" then ("", [], [])
  else
    let homepage_content := extract_main_content d homepage_html
    let hc := extract_contact_details d homepage_html
    let relevant_links := find_relevant_links d homepage_html website_url scrape_keywords
    let extracted_content :=
      if hc.1 = [] then [("Homepage", homepage_content)]
      else [("Homepage", homepage_content), ("Contact Details", "Emails: " ++ pyJoin ", " hc.1)]
    let folded := relevant_links.foldl (scrape_page_fold d) (extracted_content, pyExtend [] hc.1, pyExtend [] hc.2)
    let combined := folded.1.foldl (fun b sc => b ++ "\n--- " ++ sc.1 ++ " ---\n" ++ sc.2 ++ "\n") ""
    (combined, d.enum folded.2.1, d.enum folded.2.2)

/-! ## Validator, resolver, LinkedIn details (lines 193-234) -/

/-- The aggregator-title keyword list of `is_aggregator_title` (line 195). -/
def aggregator_keywords : List String := ["top", "best", "guide", "list", "review"]

/-- `is_aggregator_title` (lines 194-196). -/
def is_aggregator_title (title : String) : Bool :=
  aggregator_keywords.any (fun kw => strContains (pyLower title) (pyLower kw))

/-- The fixed blacklist of `general_search` (lines 308-312). -/
def excluded_domains : List String :=
  ["alibaba.com", "thomasnet.com", "yellowpages", "quora.com",
   "made-in-china.com", "reddit.com", "facebook.com", "globalsources.com",
   "homedepot.com"]

/-- The blacklist-domain check of `general_search` (line 308): plain,
case-sensitive substring containment. -/
def is_blacklisted_url (url : String) : Bool :=
  excluded_domains.any (fun ex => strContains url ex)

/-- Python truthiness of an optional string (absent or empty = falsy). -/
def optTruthy : Option String → Bool
  | none => false
  | some s => s != ""

/-- `extract_manufacturer_info` (lines 199-220), returning
`(linkedin_url, website_url)`.  The website loop assigns every
non-aggregator link and breaks on the first truthy one; a final falsy
value is indistinguishable downstream from `None`, so both collapse to
`none` here. -/
def extract_manufacturer_info (d : Deps) (company_name : String) : Option String × Option String :=
  let linkedin_url : Option String :=
    (d.search (company_name ++ " LinkedIn") 0).bind (fun organic =>
      (organic.find? (fun r => strContains (r.link.getD "") "linkedin.com")).bind (fun r => r.link))
  let website_url : Option String :=
    (d.search (company_name ++ " official website") 0).bind (fun organic =>
      (organic.find? (fun r => !(is_aggregator_title r.title) && optTruthy r.link)).bind (fun r => r.link))
  (linkedin_url, website_url)

/-- `extract_linkedin_details` (lines 223-234). -/
def extract_linkedin_details (d : Deps) (linkedin_url : String) : Option String × Option String :=
  let html := d.fetch linkedin_url
  if html = "" then (none, none)
  else
    let text := d.get_text html
    (phoneSearchFirst isLinkedinPhoneBody text, locSearch text)

/-! ## The two pipeline flows (lines 281-428) -/

/-- The dict entry `manufacturers[company_name] = {...}` added at lines
322-326 for an accepted hit (`extract_manufacturer_info` is pure, so its
repeated occurrences below all denote the single call of line 317). -/
def hit_entry (d : Deps) (hit : SearchHit) : String × MInfo :=
  (hit.title,
   { company := hit.title
     website := (extract_manufacturer_info d hit.title).2.getD ""
     linkedin := (extract_manufacturer_info d hit.title).1 })

/-- Inner result loop of `general_search` (lines 300-332) over one query's
organic hits.  `continue` branches skip the result-cap check; only the
fall-through path (and the path that just added a manufacturer) tests
`len(manufacturers) >= max_results`. -/
def hits_loop (d : Deps) (existing_companies : List String) (max_results : Nat) :
    List SearchHit → List (String × MInfo) → List (String × MInfo)
  | [], manufacturers => manufacturers
  | hit :: rest, manufacturers =>
    if is_aggregator_title hit.title = true then
      hits_loop d existing_companies max_results rest manufacturers
    else if optTruthy hit.link = true ∧ is_blacklisted_url (hit.link.getD "") = true then
      hits_loop d existing_companies max_results rest manufacturers
    else if hit.title ≠ "" ∧ hit.title ∉ manufacturers.map Prod.fst ∧ hit.title ∉ existing_companies then
      if (extract_manufacturer_info d hit.title).2.getD "" = "" then
        hits_loop d existing_companies max_results rest manufacturers
      else if max_results ≤ (manufacturers ++ [hit_entry d hit]).length then
        manufacturers ++ [hit_entry d hit]
      else hits_loop d existing_companies max_results rest (manufacturers ++ [hit_entry d hit])
    else
      if max_results ≤ manufacturers.length then manufacturers
      else hits_loop d existing_companies max_results rest manufacturers

/-- Outer term loop of `general_search` (lines 291-335); `hits_loop` is
pure, so its repeated occurrences denote one traversal of the query's
organic results. -/
def terms_loop (d : Deps) (country requirements : String) (max_results offset : Nat)
    (existing_companies : List String) :
    List String → List (String × MInfo) → List (String × MInfo)
  | [], manufacturers => manufacturers
  | term :: rest, manufacturers =>
    match d.search (pyStrip (term ++ " " ++ requirements ++ " in " ++ country)) offset with
    | none => terms_loop d country requirements max_results offset existing_companies rest manufacturers
    | some organic =>
      if max_results ≤ (hits_loop d existing_companies max_results organic manufacturers).length then
        hits_loop d existing_companies max_results organic manufacturers
      else
        terms_loop d country requirements max_results offset existing_companies rest
          (hits_loop d existing_companies max_results organic manufacturers)

/-- `phone, location = None, None; if linkedin_url: phone, location =
extract_linkedin_details(linkedin_url)` (lines 362-365 / 408-411). -/
def linkedin_phone_location (d : Deps) : Option String → Option String × Option String
  | some lu => extract_linkedin_details d lu
  | none => (none, none)

/-- The result dict appended at lines 370-380 for one manufacturer
(scrape results, summary, LinkedIn fallback, primary contact picks). -/
def build_record (d : Deps) (company_name : String) (details : MInfo) : Record :=
  let s := scrape_manufacturer_website d details.website
  let pl := linkedin_phone_location d details.linkedin
  { company := company_name
    linkedin := details.linkedin
    website := details.website
    phone :=
      match s.2.2 with
      | p :: _ => some p
      | [] => pl.1
    email := s.2.1.head?
    location := pl.2
    all_emails := s.2.1
    all_phones := s.2.2
    summary := d.summarize company_name s.1 }

/-- Result-processing loop of `general_search` (lines 345-382): skip
manufacturers without a website or whose scrape produced no content. -/
def process_results (d : Deps) : List (String × MInfo) → List Record
  | [] => []
  | (company_name, details) :: rest =>
    if details.website = "" then process_results d rest
    else if (scrape_manufacturer_website d details.website).1 = "" then process_results d rest
    else build_record d company_name details :: process_results d rest

/-- `general_search` (lines 281-387).  `existing_companies` models the keys
of the caller's duplicate-exclusion dict. -/
def general_search (d : Deps) (country : String) (search_terms : List String)
    (requirements : String) (max_results offset : Nat) (existing_companies : List String) :
    List Record :=
  if (terms_loop d country requirements max_results offset existing_companies search_terms []).isEmpty
  then []
  else process_results d (terms_loop d country requirements max_results offset existing_companies search_terms [])

/-- `specific_company_search` (lines 390-428). -/
def specific_company_search (d : Deps) (company_name : String) : Option Record :=
  if company_name = "" then none
  else
    let info := extract_manufacturer_info d company_name
    if info.2.getD "" = "" then none
    else
      let s := scrape_manufacturer_website d (info.2.getD "")
      if s.1 = "" then none
      else
        let pl := linkedin_phone_location d info.1
        some { company := company_name
               linkedin := info.1
               website := info.2.getD ""
               phone :=
                 match s.2.2 with
                 | p :: _ => some p
                 | [] => pl.1
               email := s.2.1.head?
               location := pl.2
               all_emails := s.2.1
               all_phones := s.2.2
               summary := d.summarize company_name s.1 }

/-! ## Claim-side definitions (formalising the spec's vocabulary) -/

/-- Extraction-order email list of one page: the order in which the code
discovers emails (mailto anchors first, then regex matches over the raw
markup), before the set is enumerated.  This formalises the spec's
"extraction order" within a page; it is the insertion order of the
`emails` set. -/
def site_extraction_email_step (d : Deps) (acc : List String) (kl : String × String) : List String :=
  let page_html := d.fetch kl.2
  if page_html = "" then acc
  else pyExtend acc (contact_emails_content d page_html)

/-- As `site_extraction_email_step`, for phones. -/
def site_extraction_phone_step (d : Deps) (acc : List String) (kl : String × String) : List String :=
  let page_html := d.fetch kl.2
  if page_html = "" then acc
  else pyExtend acc (contact_phones_content page_html)

/-- The site-level extraction-order email list: homepage discoveries first,
then the keyword-link pages in map iteration order, duplicates dropped at
first occurrence.  This is the list whose head the spec calls the primary
email ("first element of the corresponding set by extraction order,
homepage before secondary pages"). -/
def site_extraction_emails (d : Deps) (website_url : String) : List String :=
  let homepage_html := d.fetch website_url
  if homepage_html = "" then []
  else
    (find_relevant_links d homepage_html website_url scrape_keywords).foldl
      (site_extraction_email_step d)
      (pyExtend [] (contact_emails_content d homepage_html))

/-- As `site_extraction_emails`, for phones. -/
def site_extraction_phones (d : Deps) (website_url : String) : List String :=
  let homepage_html := d.fetch website_url
  if homepage_html = "" then []
  else
    (find_relevant_links d homepage_html website_url scrape_keywords).foldl
      (site_extraction_phone_step d)
      (pyExtend [] (contact_phones_content homepage_html))

/-- Modelled from the spec: the canonical company name, "title with
trailing \" - X\"/\" | X\" suffixes stripped".  No such stripping exists in
src/app.py; this definition is only used to state claim C5 against the
code. -/
def strip_title_suffix (title : String) : String :=
  let t1 := (pySplit title " | ").getD 0 title
  (pySplit t1 " - ").getD 0 t1

/-- The multiset of URLs fetched by one `scrape_manufacturer_website` run:
the homepage, plus (when the homepage fetch succeeded) every URL of the
keyword-to-link map, one fetch per map entry (lines 117 and 137). -/
def scrape_fetch_urls (d : Deps) (website_url : String) : List String :=
  let homepage_html := d.fetch website_url
  if homepage_html = "" then [website_url]
  else website_url :: (find_relevant_links d homepage_html website_url scrape_keywords).map Prod.snd

/-! ## Concrete environments used by counterexamples and witnesses -/

/-- A trivial environment: no search results, no pages, identity text
extraction, identity set enumeration. -/
def trivDeps : Deps :=
  { search := fun _ _ => none
    fetch := fun _ => ""
    parse := fun _ => []
    readability := fun s => Except.ok s
    get_text := fun s => s
    urljoin := fun b h => b ++ h
    summarize := fun _ _ => "summary"
    enum := fun s => s }

/-- Homepage markup of the scenario site: a mailto anchor for
`info@acme.com` and a link to the contact page. -/
def homeHtml1 : String :=
  "<a href=\"mailto:info@acme.com\">mail</a><a href=\"/contact\">Contact</a>"

/-- Contact-page markup of the scenario site: a mailto anchor for
`sales@acme.com`. -/
def contactHtml1 : String :=
  "<a href=\"mailto:sales@acme.com\">Email</a>"

/-- Environment for the C1 scenario: one discovery hit for "Acme", whose
official-website query resolves to `https://acme.example`; the site has
the two scenario pages.  `enum` reverses the set content — an admissible
`list(set)` order (CPython's order is hash-seed dependent). -/
def d1 : Deps :=
  { trivDeps with
    search := fun q _ =>
      if q = "wood  in IT" then some [{ title := "Acme", link := some "https://acme.example" }]
      else if q = "Acme official website" then
        some [{ title := "Acme", link := some "https://acme.example" }]
      else none
    fetch := fun u =>
      if u = "https://acme.example" then homeHtml1
      else if u = "https://acme.example/contact" then contactHtml1
      else ""
    parse := fun h =>
      if h = homeHtml1 then
        [{ text := "mail", href := "mailto:info@acme.com" },
         { text := "Contact", href := "/contact" }]
      else if h = contactHtml1 then [{ text := "Email", href := "mailto:sales@acme.com" }]
      else []
    enum := fun s => s.reverse }

/-- The single record emitted by `general_search d1 "IT" ["wood"] "" 1 0 []`. -/
def rec1 : Record :=
  { company := "Acme"
    linkedin := none
    website := "https://acme.example"
    phone := none
    email := some "sales@acme.com"
    location := none
    all_emails := ["sales@acme.com", "info@acme.com"]
    all_phones := []
    summary := "summary" }

/-- Environment for C2: the discovery hit's link is clean, but the
official-website query resolves to an alibaba.com page (with a
non-aggregator title), which is stored and scraped without any blacklist
check. -/
def d2 : Deps :=
  { trivDeps with
    search := fun q _ =>
      if q = "wood  in IT" then some [{ title := "Acme", link := some "https://acme.example" }]
      else if q = "Acme official website" then
        some [{ title := "Acme Furniture", link := some "https://www.alibaba.com/acme" }]
      else none
    fetch := fun u => if u = "https://www.alibaba.com/acme" then "<p>wood factory</p>" else "" }

/-- Environment for C3: identity set enumeration; parsing of `html3`
yields its mailto anchor. -/
def html3 : String := "<a href=\"mailto:a@b.com\">M</a> c@d.com"

/-- Parser component for `html3`. -/
def d3 : Deps :=
  { trivDeps with
    parse := fun h =>
      if h = html3 then [{ text := "M", href := "mailto:a@b.com" }] else [] }

/-- Environment for C5: the discovery hit's title carries a " - X" suffix;
the emitted record keeps the full title. -/
def d5 : Deps :=
  { trivDeps with
    search := fun q _ =>
      if q = "wood  in IT" then
        some [{ title := "Acme Woodworks - Official Site", link := some "https://acme.example" }]
      else if q = "Acme Woodworks - Official Site official website" then
        some [{ title := "Acme", link := some "https://acme.example" }]
      else none
    fetch := fun u => if u = "https://acme.example" then "<p>wood</p>" else "" }

/-- Environment for C6: the LinkedIn query's first result is a personal
profile on linkedin.com without the company-profile path segment. -/
def d6 : Deps :=
  { trivDeps with
    search := fun q _ =>
      if q = "Acme LinkedIn" then
        some [{ title := "John Doe - LinkedIn", link := some "https://www.linkedin.com/in/johndoe" }]
      else none }

/-- Environment for C7: readability succeeds but yields nothing, while the
full document has visible text. -/
def d7 : Deps :=
  { trivDeps with
    readability := fun _ => Except.ok ""
    get_text := fun h => if h = "" then "" else "TEXT" }

/-- Homepage for C8 with a single "Contact Us" anchor, matched by both the
`contact` and the `contact us` keyword. -/
def html8 : String := "<a href=\"/c\">Contact Us</a>"

/-- Environment for C8. -/
def d8 : Deps :=
  { trivDeps with
    fetch := fun u => if u = "https://x" then html8 else ""
    parse := fun h => if h = html8 then [{ text := "Contact Us", href := "/c" }] else [] }

/-- The single record emitted by `general_search d2 "IT" ["wood"] "" 1 0 []`
and by `specific_company_search d2 "Acme"`: its website is blacklisted. -/
def rec2 : Record :=
  { company := "Acme"
    linkedin := none
    website := "https://www.alibaba.com/acme"
    phone := none
    email := none
    location := none
    all_emails := []
    all_phones := []
    summary := "summary" }

/-- The single record emitted by `general_search d5 "IT" ["wood"] "" 1 0 []`:
its name keeps the " - X" title suffix. -/
def rec5 : Record :=
  { company := "Acme Woodworks - Official Site"
    linkedin := none
    website := "https://acme.example"
    phone := none
    email := none
    location := none
    all_emails := []
    all_phones := []
    summary := "summary" }

/-! # Infrastructure lemmas -/

theorem mem_pyInsert {s : List String} {x a : String} :
    a ∈ pyInsert s x ↔ a ∈ s ∨ a = x := by
  unfold pyInsert
  split
  · rename_i hx
    constructor
    · exact Or.inl
    · rintro (h | rfl)
      · exact h
      · exact hx
  · simp [List.mem_append]

theorem nodup_pyInsert {s : List String} (h : s.Nodup) (x : String) :
    (pyInsert s x).Nodup := by
  unfold pyInsert
  split
  · exact h
  · rename_i hx
    rw [List.nodup_append]
    refine ⟨h, List.nodup_singleton x, ?_⟩
    intro a ha hax
    rw [List.mem_singleton] at hax
    subst hax
    exact hx ha

theorem mem_pyExtend : ∀ (xs s : List String) (a : String),
    a ∈ pyExtend s xs ↔ a ∈ s ∨ a ∈ xs := by
  intro xs
  induction xs with
  | nil => simp [pyExtend]
  | cons x xs ih =>
    intro s a
    have h1 : pyExtend s (x :: xs) = pyExtend (pyInsert s x) xs := rfl
    rw [h1, ih, mem_pyInsert, List.mem_cons]
    tauto

theorem nodup_pyExtend : ∀ (xs s : List String), s.Nodup → (pyExtend s xs).Nodup := by
  intro xs
  induction xs with
  | nil => intro s h; exact h
  | cons x xs ih =>
    intro s h
    exact ih _ (nodup_pyInsert h x)

theorem nodup_contact_emails_content (d : Deps) (html : String) :
    (contact_emails_content d html).Nodup :=
  nodup_pyExtend _ _ (nodup_pyExtend _ _ List.nodup_nil)

theorem nodup_contact_phones_content (html : String) :
    (contact_phones_content html).Nodup :=
  nodup_pyExtend _ _ List.nodup_nil

theorem SetEnum.mem {f : List String → List String} (hf : SetEnum f)
    {s : List String} (hs : s.Nodup) {a : String} : a ∈ f s ↔ a ∈ s :=
  (hf s hs).mem_iff

theorem SetEnum.nodup {f : List String → List String} (hf : SetEnum f)
    {s : List String} (hs : s.Nodup) : (f s).Nodup :=
  ((hf s hs).nodup_iff).2 hs

/-- Characterisation of `List.find?`: the returned element is the first one
satisfying the predicate, in list order. -/
theorem find?_first {α : Type} (p : α → Bool) :
    ∀ (l : List α) (a : α), l.find? p = some a →
      ∃ i, l.get? i = some a ∧ p a = true ∧
        ∀ j b, j < i → l.get? j = some b → p b = false := by
  intro l
  induction l with
  | nil => intro a h; simp [List.find?] at h
  | cons x xs ih =>
    intro a h
    by_cases hp : p x = true
    · rw [List.find?_cons_of_pos _ hp] at h
      injection h with h
      subst h
      exact ⟨0, rfl, hp, by intro j b hj; omega⟩
    · rw [List.find?_cons_of_neg _ (by simpa using hp)] at h
      obtain ⟨i, hi, hpa, hmin⟩ := ih a h
      refine ⟨i + 1, hi, hpa, ?_⟩
      intro j b hj hjb
      cases j with
      | zero =>
        injection hjb with hjb
        subst hjb
        simpa using hp
      | succ k => exact hmin k b (by omega) hjb

/-! # Claim C4: blacklist-domain check -/

/-- C4, counterexample: the claim says the blacklist check is
case-insensitive and rejects every URL containing `alibaba.com` in any
letter case.  The code uses plain `excluded in website_url` (line 308),
which is case-sensitive: a URL whose lower-casing contains `alibaba.com`
passes the check unrejected. -/
theorem C4_cex :
    strContains (pyLower "https://WWW.ALIBABA.COM/p") "alibaba.com" = true ∧
    is_blacklisted_url "https://WWW.ALIBABA.COM/p" = false := by
  exact ⟨by decide, by decide⟩

/-- C4, amended: the blacklist check is a case-SENSITIVE substring match
over the fixed list of domain substrings; in particular every URL
containing the exact lower-case string `alibaba.com` is rejected,
regardless of scheme or path. -/
theorem C4_thm (url : String) (h : strContains url "alibaba.com" = true) :
    is_blacklisted_url url = true ∧
    ∀ u : String, is_blacklisted_url u = true ↔ ∃ e ∈ excluded_domains, strContains u e = true := by
  constructor
  · unfold is_blacklisted_url
    rw [List.any_eq_true]
    exact ⟨"alibaba.com", by simp [excluded_domains], h⟩
  · intro u
    unfold is_blacklisted_url
    exact List.any_eq_true

/-- C4, witness for `C4_thm` at a concrete URL. -/
theorem C4_wit :
    strContains "http://alibaba.com/x" "alibaba.com" = true ∧
    is_blacklisted_url "http://alibaba.com/x" = true :=
  ⟨by decide, (C4_thm "http://alibaba.com/x" (by decide)).1⟩

/-! # Claim C7: extract_main_content fallback -/

/-- C7, counterexample: the claim says the full-document fallback is used
when readability isolation "throws or yields nothing".  In the code
(lines 60-69) the fallback runs only when the isolation raises: when it
succeeds with empty content, the empty isolated text is returned even
though the full document has visible text. -/
theorem C7_cex :
    d7.readability "x" = Except.ok "" ∧
    extract_main_content d7 "x" = "" ∧
    d7.get_text "x" = "TEXT" := by
  refine ⟨rfl, ?_, by decide⟩
  decide

/-- C7, amended: `extract_main_content` always returns a text result and
never propagates a failure: the result is the visible text of the
isolated summary whenever isolation succeeds (even when that text is
empty), and the visible text of the full document exactly when isolation
raises. -/
theorem C7_thm (d : Deps) (html : String) :
    ∃ t : String, extract_main_content d html = d.get_text t ∧
      (d.readability html = Except.ok t ∨ (d.readability html = Except.error () ∧ t = html)) := by
  unfold extract_main_content
  cases h : d.readability html with
  | ok s => exact ⟨s, rfl, Or.inl rfl⟩
  | error e => cases e; exact ⟨html, rfl, Or.inr ⟨rfl, rfl⟩⟩

/-! # Claim C3: structural-first-then-regex within a page -/

/-- C3, counterexample: the claim says regex matching for a field runs only
when structural extraction yields nothing for it.  On `html3` the mailto
anchor yields `a@b.com`, yet the regex-only address `c@d.com` still
appears in the returned email list (lines 85-89 run unconditionally). -/
theorem C3_cex :
    SetEnum d3.enum ∧
    mailto_targets d3 html3 = ["a@b.com"] ∧
    (extract_contact_details d3 html3).1 = ["a@b.com", "c@d.com"] := by
  refine ⟨fun s _ => List.Perm.refl s, by decide, by decide⟩

/-- C3, amended: within a page, mailto structural extraction runs first and
the email regex over the raw markup is always applied in addition, both
results being unioned into the email set; phone extraction is regex-only
(no `tel:` anchors are consulted — the returned phone list is a
permutation of the regex-derived content for every parser behaviour), so
there is no structural-over-regex priority inside a page. -/
theorem C3_thm (d : Deps) (hd : SetEnum d.enum) (html : String) :
    (∀ e ∈ mailto_targets d html, e ∈ (extract_contact_details d html).1) ∧
    (∀ e ∈ emailFindAll html, e ∈ (extract_contact_details d html).1) ∧
    ((extract_contact_details d html).2).Perm (contact_phones_content html) := by
  refine ⟨?_, ?_, ?_⟩
  · intro e he
    have : e ∈ contact_emails_content d html := by
      unfold contact_emails_content
      rw [mem_pyExtend]
      exact Or.inl ((mem_pyExtend _ _ _).2 (Or.inr he))
    exact ((hd.mem (nodup_contact_emails_content d html)).2 this)
  · intro e he
    have : e ∈ contact_emails_content d html := by
      unfold contact_emails_content
      rw [mem_pyExtend]
      exact Or.inr he
    exact ((hd.mem (nodup_contact_emails_content d html)).2 this)
  · exact hd _ (nodup_contact_phones_content html)

/-- C3, witness for `C3_thm` at the concrete page `html3`. -/
theorem C3_wit :
    SetEnum d3.enum ∧
    ("a@b.com" ∈ (extract_contact_details d3 html3).1 ∧
     "c@d.com" ∈ (extract_contact_details d3 html3).1 ∧
     ((extract_contact_details d3 html3).2).Perm (contact_phones_content html3)) := by
  have hd : SetEnum d3.enum := fun s _ => List.Perm.refl s
  refine ⟨hd, ?_, ?_, (C3_thm d3 hd html3).2.2⟩
  · exact (C3_thm d3 hd html3).1 "a@b.com" (by decide)
  · exact (C3_thm d3 hd html3).2.1 "c@d.com" (by decide)

/-! # Claim C8: no URL fetched twice -/

/-- The per-keyword fold of `find_links_step` never re-maps an already
mapped keyword, so it preserves duplicate-freedom of the keys. -/
theorem nodup_keys_kwfold (g : String → Bool) (v : String) :
    ∀ (kws : List String) (links : List (String × String)),
      (links.map Prod.fst).Nodup →
      ((kws.foldl (fun links kw =>
          if g kw = true ∧ kw ∉ links.map Prod.fst then links ++ [(kw, v)] else links)
        links).map Prod.fst).Nodup := by
  intro kws
  induction kws with
  | nil => intro links h; exact h
  | cons kw rest ih =>
    intro links h
    rw [List.foldl_cons]
    split
    · rename_i hcond
      refine ih _ ?_
      rw [List.map_append, List.nodup_append]
      refine ⟨h, by simp, ?_⟩
      intro a ha hax
      simp at hax
      subst hax
      exact hcond.2 ha
    · exact ih _ h

theorem nodup_keys_find_links_step (d : Deps) (base : String) (kws : List String)
    (a : Anchor) (links : List (String × String)) (h : (links.map Prod.fst).Nodup) :
    ((find_links_step d base kws links a).map Prod.fst).Nodup :=
  nodup_keys_kwfold (fun kw => strContains (pyLower (pyStrip a.text)) kw)
    (d.urljoin base a.href) kws links h

theorem nodup_keys_anchor_fold (d : Deps) (base : String) (kws : List String) :
    ∀ (anchors : List Anchor) (links : List (String × String)),
      (links.map Prod.fst).Nodup →
      ((anchors.foldl (find_links_step d base kws) links).map Prod.fst).Nodup := by
  intro anchors
  induction anchors with
  | nil => intro links h; exact h
  | cons a as ih =>
    intro links h
    rw [List.foldl_cons]
    exact ih _ (nodup_keys_find_links_step d base kws a links h)

theorem nodup_keys_find_relevant_links (d : Deps) (home base : String) (kws : List String) :
    ((find_relevant_links d home base kws).map Prod.fst).Nodup :=
  nodup_keys_anchor_fold d base kws (d.parse home) [] (by simp)

/-- C8, counterexample: with the fixed scrape keyword list, a homepage
whose single anchor reads "Contact Us" maps both the `contact` and the
`contact us` keyword to the same resolved URL, so the multiset of fetch
targets of the scrape run contains that URL twice — the claim's
duplicate-freedom fails. -/
theorem C8_cex :
    scrape_fetch_urls d8 "https://x" = ["https://x", "https://x/c", "https://x/c"] ∧
    ¬ (scrape_fetch_urls d8 "https://x").Nodup := by
  exact ⟨by decide, by decide⟩

/-- C8, amended: the keyword-to-link map never maps the same keyword twice
(first matching anchor wins), but distinct keywords may map to the same
URL, which is then fetched once per map entry; the fetch multiset is
duplicate-free only under the extra assumptions that the mapped URLs are
pairwise distinct and exclude the homepage URL. -/
theorem C8_thm (d : Deps) (home base : String) (kws : List String) (url : String)
    (h1 : ((find_relevant_links d (d.fetch url) url scrape_keywords).map Prod.snd).Nodup)
    (h2 : url ∉ (find_relevant_links d (d.fetch url) url scrape_keywords).map Prod.snd) :
    ((find_relevant_links d home base kws).map Prod.fst).Nodup ∧
    (scrape_fetch_urls d url).Nodup := by
  refine ⟨nodup_keys_find_relevant_links d home base kws, ?_⟩
  by_cases hc : d.fetch url = ""
  · simp [scrape_fetch_urls, hc]
  · simp only [scrape_fetch_urls, hc, if_false, List.nodup_cons]
    exact ⟨h2, h1⟩

/-- C8, witness for `C8_thm` on the scenario site of `d1`, whose single
mapped link differs from the homepage URL. -/
theorem C8_wit :
    ((find_relevant_links d1 (d1.fetch "https://acme.example") "https://acme.example" scrape_keywords).map Prod.snd).Nodup ∧
    (((find_relevant_links d1 homeHtml1 "https://acme.example" scrape_keywords).map Prod.fst).Nodup ∧
     (scrape_fetch_urls d1 "https://acme.example").Nodup) :=
  ⟨by decide,
   C8_thm d1 homeHtml1 "https://acme.example" scrape_keywords "https://acme.example"
     (by decide) (by decide)⟩

/-! # Claim C6: company-profile resolution -/

/-- C6, counterexample: the claim says a result link on the social
network's domain that lacks the company-profile path segment is never
accepted.  The code (lines 204-208) accepts the first link containing the
bare domain substring `linkedin.com`: a personal profile under `/in/` is
accepted although it has no `/company/` segment. -/
theorem C6_cex :
    (extract_manufacturer_info d6 "Acme").1 = some "https://www.linkedin.com/in/johndoe" ∧
    strContains "https://www.linkedin.com/in/johndoe" "/company/" = false := by
  exact ⟨by decide, by decide⟩

/-- C6, amended: the accepted profile URL is the link of the first result
(in rank order) whose link contains the domain substring `linkedin.com`;
no company-profile path segment is required. -/
theorem C6_thm (d : Deps) (name u : String)
    (h : (extract_manufacturer_info d name).1 = some u) :
    ∃ organic, d.search (name ++ " LinkedIn") 0 = some organic ∧
      strContains u "linkedin.com" = true ∧
      ∃ i hit, organic.get? i = some hit ∧ hit.link = some u ∧
        ∀ j hit2, j < i → organic.get? j = some hit2 →
          strContains (hit2.link.getD "") "linkedin.com" = false := by
  unfold extract_manufacturer_info at h
  simp only at h
  cases hs : d.search (name ++ " LinkedIn") 0 with
  | none => rw [hs] at h; simp at h
  | some organic =>
    rw [hs, Option.some_bind] at h
    cases hf : organic.find? (fun r => strContains (r.link.getD "") "linkedin.com") with
    | none => rw [hf] at h; simp at h
    | some hit =>
      rw [hf] at h
      simp only [Option.some_bind] at h
      have hp := List.find?_some hf
      obtain ⟨i, hi, _, hmin⟩ := find?_first _ organic hit hf
      refine ⟨organic, rfl, ?_, i, hit, hi, h, hmin⟩
      rw [h] at hp
      simpa using hp

/-- C6, witness for `C6_thm` at the concrete environment `d6`. -/
theorem C6_wit :
    (extract_manufacturer_info d6 "Acme").1 = some "https://www.linkedin.com/in/johndoe" ∧
    (∃ organic, d6.search ("Acme" ++ " LinkedIn") 0 = some organic ∧
      strContains "https://www.linkedin.com/in/johndoe" "linkedin.com" = true ∧
      ∃ i hit, organic.get? i = some hit ∧ hit.link = some "https://www.linkedin.com/in/johndoe" ∧
        ∀ j hit2, j < i → organic.get? j = some hit2 →
          strContains (hit2.link.getD "") "linkedin.com" = false) :=
  ⟨by decide, C6_thm d6 "Acme" "https://www.linkedin.com/in/johndoe" (by decide)⟩

/-! # Claim C10: duplicate-freedom of contact lists -/

theorem nodup_scrape_page_fold (d : Deps)
    (acc : List (String × String) × List String × List String) (kl : String × String)
    (h1 : acc.2.1.Nodup) (h2 : acc.2.2.Nodup) :
    (scrape_page_fold d acc kl).2.1.Nodup ∧ (scrape_page_fold d acc kl).2.2.Nodup := by
  unfold scrape_page_fold
  by_cases hp : d.fetch kl.2 = ""
  · simp only [hp, if_true, eq_self_iff_true]
    exact ⟨h1, h2⟩
  · simp only [hp, if_false]
    exact ⟨nodup_pyExtend _ _ h1, nodup_pyExtend _ _ h2⟩

theorem nodup_scrape_fold (d : Deps) :
    ∀ (links : List (String × String)) (acc : List (String × String) × List String × List String),
      acc.2.1.Nodup → acc.2.2.Nodup →
      (links.foldl (scrape_page_fold d) acc).2.1.Nodup ∧
      (links.foldl (scrape_page_fold d) acc).2.2.Nodup := by
  intro links
  induction links with
  | nil => intro acc h1 h2; exact ⟨h1, h2⟩
  | cons kl rest ih =>
    intro acc h1 h2
    rw [List.foldl_cons]
    have h := nodup_scrape_page_fold d acc kl h1 h2
    exact ih _ h.1 h.2

/-- C10 (confirmed): for every page, the email list and the phone list
returned by `extract_contact_details` are duplicate-free (they enumerate
Python sets), and the aggregate email and phone lists returned by
`scrape_manufacturer_website` are duplicate-free as well. -/
theorem C10_thm (d : Deps) (hd : SetEnum d.enum) (html url : String) :
    ((extract_contact_details d html).1.Nodup ∧ (extract_contact_details d html).2.Nodup) ∧
    ((scrape_manufacturer_website d url).2.1.Nodup ∧ (scrape_manufacturer_website d url).2.2.Nodup) := by
  constructor
  · exact ⟨hd.nodup (nodup_contact_emails_content d html),
      hd.nodup (nodup_contact_phones_content html)⟩
  · by_cases hc : d.fetch url = ""
    · simp [scrape_manufacturer_website, hc]
    · simp only [scrape_manufacturer_website, hc, if_false]
      have h := nodup_scrape_fold d
        (find_relevant_links d (d.fetch url) url scrape_keywords)
        (if (extract_contact_details d (d.fetch url)).1 = [] then
          [("Homepage", extract_main_content d (d.fetch url))]
         else
          [("Homepage", extract_main_content d (d.fetch url)),
           ("Contact Details", "Emails: " ++ pyJoin ", " (extract_contact_details d (d.fetch url)).1)],
         pyExtend [] (extract_contact_details d (d.fetch url)).1,
         pyExtend [] (extract_contact_details d (d.fetch url)).2)
        (nodup_pyExtend _ _ List.nodup_nil) (nodup_pyExtend _ _ List.nodup_nil)
      exact ⟨hd.nodup h.1, hd.nodup h.2⟩

/-- C10, witness for `C10_thm` at the scenario environment `d1` (whose
`enum` reverses set content). -/
theorem C10_wit :
    SetEnum d1.enum ∧
    (((extract_contact_details d1 homeHtml1).1.Nodup ∧ (extract_contact_details d1 homeHtml1).2.Nodup) ∧
     ((scrape_manufacturer_website d1 "https://acme.example").2.1.Nodup ∧
      (scrape_manufacturer_website d1 "https://acme.example").2.2.Nodup)) :=
  ⟨fun s _ => List.reverse_perm s,
   C10_thm d1 (fun s _ => List.reverse_perm s) homeHtml1 "https://acme.example"⟩

/-! # Loop invariants of general_search -/

/-- Every key of the manufacturers dict produced by `hits_loop` is either a
pre-existing key or the title of one of the processed hits, non-empty and
outside the exclusion set. -/
theorem hits_loop_keys (d : Deps) (ex : List String) (mx : Nat) :
    ∀ (hits : List SearchHit) (mans : List (String × MInfo)) (k : String),
      k ∈ (hits_loop d ex mx hits mans).map Prod.fst →
      k ∈ mans.map Prod.fst ∨ (k ≠ "" ∧ k ∉ ex ∧ ∃ hit ∈ hits, k = hit.title) := by
  intro hits
  induction hits with
  | nil =>
    intro mans k hk
    rw [hits_loop] at hk
    exact Or.inl hk
  | cons hit rest ih =>
    intro mans k hk
    rw [hits_loop] at hk
    by_cases c1 : is_aggregator_title hit.title = true
    · rw [if_pos c1] at hk
      rcases ih mans k hk with h | ⟨h1, h2, w, hw, he⟩
      · exact Or.inl h
      · exact Or.inr ⟨h1, h2, w, List.mem_cons_of_mem _ hw, he⟩
    · rw [if_neg c1] at hk
      by_cases c2 : optTruthy hit.link = true ∧ is_blacklisted_url (hit.link.getD "") = true
      · rw [if_pos c2] at hk
        rcases ih mans k hk with h | ⟨h1, h2, w, hw, he⟩
        · exact Or.inl h
        · exact Or.inr ⟨h1, h2, w, List.mem_cons_of_mem _ hw, he⟩
      · rw [if_neg c2] at hk
        by_cases c3 : hit.title ≠ "" ∧ hit.title ∉ mans.map Prod.fst ∧ hit.title ∉ ex
        · rw [if_pos c3] at hk
          by_cases c4 : (extract_manufacturer_info d hit.title).2.getD "" = ""
          · rw [if_pos c4] at hk
            rcases ih mans k hk with h | ⟨h1, h2, w, hw, he⟩
            · exact Or.inl h
            · exact Or.inr ⟨h1, h2, w, List.mem_cons_of_mem _ hw, he⟩
          · rw [if_neg c4] at hk
            have hApp : k ∈ (mans ++ [hit_entry d hit]).map Prod.fst →
                k ∈ mans.map Prod.fst ∨ (k ≠ "" ∧ k ∉ ex ∧ ∃ h2 ∈ hit :: rest, k = h2.title) := by
              intro hm
              rw [List.map_append, List.mem_append] at hm
              rcases hm with h | h
              · exact Or.inl h
              · simp [hit_entry] at h
                exact Or.inr ⟨by rw [h]; exact c3.1, by rw [h]; exact c3.2.2,
                  hit, List.mem_cons_self _ _, h⟩
            split at hk
            · exact hApp hk
            · rcases ih _ k hk with h | ⟨h1, h2, w, hw, he⟩
              · exact hApp h
              · exact Or.inr ⟨h1, h2, w, List.mem_cons_of_mem _ hw, he⟩
        · rw [if_neg c3] at hk
          split at hk
          · exact Or.inl hk
          · rcases ih mans k hk with h | ⟨h1, h2, w, hw, he⟩
            · exact Or.inl h
            · exact Or.inr ⟨h1, h2, w, List.mem_cons_of_mem _ hw, he⟩

/-- `hits_loop` preserves duplicate-freedom of the manufacturers keys (a
hit is only added when its title is not yet a key). -/
theorem hits_loop_keys_nodup (d : Deps) (ex : List String) (mx : Nat) :
    ∀ (hits : List SearchHit) (mans : List (String × MInfo)),
      (mans.map Prod.fst).Nodup → ((hits_loop d ex mx hits mans).map Prod.fst).Nodup := by
  intro hits
  induction hits with
  | nil => intro mans h; rw [hits_loop]; exact h
  | cons hit rest ih =>
    intro mans h
    rw [hits_loop]
    by_cases c1 : is_aggregator_title hit.title = true
    · rw [if_pos c1]; exact ih mans h
    · rw [if_neg c1]
      by_cases c2 : optTruthy hit.link = true ∧ is_blacklisted_url (hit.link.getD "") = true
      · rw [if_pos c2]; exact ih mans h
      · rw [if_neg c2]
        by_cases c3 : hit.title ≠ "" ∧ hit.title ∉ mans.map Prod.fst ∧ hit.title ∉ ex
        · rw [if_pos c3]
          by_cases c4 : (extract_manufacturer_info d hit.title).2.getD "" = ""
          · rw [if_pos c4]; exact ih mans h
          · rw [if_neg c4]
            have hApp : ((mans ++ [hit_entry d hit]).map Prod.fst).Nodup := by
              rw [List.map_append, List.nodup_append]
              refine ⟨h, by simp, ?_⟩
              intro a ha hax
              simp [hit_entry] at hax
              subst hax
              exact c3.2.1 ha
            split
            · exact hApp
            · exact ih _ hApp
        · rw [if_neg c3]
          split
          · exact h
          · exact ih mans h

/-- Provenance of `terms_loop` keys: each is pre-existing or the title of
an organic hit of some term's query, non-empty and outside the exclusion
set. -/
theorem terms_loop_keys (d : Deps) (c req : String) (mx off : Nat) (ex : List String) :
    ∀ (terms : List String) (mans : List (String × MInfo)) (k : String),
      k ∈ (terms_loop d c req mx off ex terms mans).map Prod.fst →
      k ∈ mans.map Prod.fst ∨
        (k ≠ "" ∧ k ∉ ex ∧ ∃ term ∈ terms, ∃ organic,
          d.search (pyStrip (term ++ " " ++ req ++ " in " ++ c)) off = some organic ∧
          ∃ hit ∈ organic, k = hit.title) := by
  intro terms
  induction terms with
  | nil =>
    intro mans k hk
    rw [terms_loop] at hk
    exact Or.inl hk
  | cons term rest ih =>
    intro mans k hk
    rcases hs : d.search (pyStrip (term ++ " " ++ req ++ " in " ++ c)) off with _ | organic
    · have hk2 : k ∈ (terms_loop d c req mx off ex rest mans).map Prod.fst := by
        rw [terms_loop, hs] at hk
        exact hk
      rcases ih mans k hk2 with h | ⟨h1, h2, t, ht, rest2⟩
      · exact Or.inl h
      · exact Or.inr ⟨h1, h2, t, List.mem_cons_of_mem _ ht, rest2⟩
    · have hk2 : k ∈ (if mx ≤ (hits_loop d ex mx organic mans).length then
          hits_loop d ex mx organic mans
        else terms_loop d c req mx off ex rest (hits_loop d ex mx organic mans)).map Prod.fst := by
        rw [terms_loop, hs] at hk
        exact hk
      have hHit : k ∈ (hits_loop d ex mx organic mans).map Prod.fst →
          k ∈ mans.map Prod.fst ∨
            (k ≠ "" ∧ k ∉ ex ∧ ∃ t ∈ term :: rest, ∃ org2,
              d.search (pyStrip (t ++ " " ++ req ++ " in " ++ c)) off = some org2 ∧
              ∃ hit ∈ org2, k = hit.title) := by
        intro hm
        rcases hits_loop_keys d ex mx organic mans k hm with h | ⟨h1, h2, w, hw, he⟩
        · exact Or.inl h
        · exact Or.inr ⟨h1, h2, term, List.mem_cons_self _ _, organic, hs, w, hw, he⟩
      split at hk2
      · exact hHit hk2
      · rcases ih _ k hk2 with h | ⟨h1, h2, t, ht, rest2⟩
        · exact hHit h
        · exact Or.inr ⟨h1, h2, t, List.mem_cons_of_mem _ ht, rest2⟩

/-- `terms_loop` preserves duplicate-freedom of the manufacturers keys. -/
theorem terms_loop_keys_nodup (d : Deps) (c req : String) (mx off : Nat) (ex : List String) :
    ∀ (terms : List String) (mans : List (String × MInfo)),
      (mans.map Prod.fst).Nodup → ((terms_loop d c req mx off ex terms mans).map Prod.fst).Nodup := by
  intro terms
  induction terms with
  | nil => intro mans h; rw [terms_loop]; exact h
  | cons term rest ih =>
    intro mans h
    rcases hs : d.search (pyStrip (term ++ " " ++ req ++ " in " ++ c)) off with _ | organic
    · have he : terms_loop d c req mx off ex (term :: rest) mans =
          terms_loop d c req mx off ex rest mans := by
        rw [terms_loop, hs]
      rw [he]
      exact ih mans h
    · have he : terms_loop d c req mx off ex (term :: rest) mans =
          (if mx ≤ (hits_loop d ex mx organic mans).length then
            hits_loop d ex mx organic mans
          else terms_loop d c req mx off ex rest (hits_loop d ex mx organic mans)) := by
        rw [terms_loop, hs]
      rw [he]
      split
      · exact hits_loop_keys_nodup d ex mx organic mans h
      · exact ih _ (hits_loop_keys_nodup d ex mx organic mans h)

/-- Every record produced by `process_results` stems from one manufacturers
entry whose website is non-empty and whose scrape yielded content. -/
theorem mem_process_results (d : Deps) :
    ∀ (mans : List (String × MInfo)) (r : Record), r ∈ process_results d mans →
      ∃ nm det, (nm, det) ∈ mans ∧ det.website ≠ "" ∧
        (scrape_manufacturer_website d det.website).1 ≠ "" ∧ r = build_record d nm det := by
  intro mans
  induction mans with
  | nil => intro r hr; rw [process_results] at hr; simp at hr
  | cons p rest ih =>
    obtain ⟨nm, det⟩ := p
    intro r hr
    rw [process_results] at hr
    by_cases c1 : det.website = ""
    · rw [if_pos c1] at hr
      obtain ⟨a, b, h1, h2, h3, h4⟩ := ih r hr
      exact ⟨a, b, List.mem_cons_of_mem _ h1, h2, h3, h4⟩
    · rw [if_neg c1] at hr
      by_cases c2 : (scrape_manufacturer_website d det.website).1 = ""
      · rw [if_pos c2] at hr
        obtain ⟨a, b, h1, h2, h3, h4⟩ := ih r hr
        exact ⟨a, b, List.mem_cons_of_mem _ h1, h2, h3, h4⟩
      · rw [if_neg c2] at hr
        rcases List.mem_cons.1 hr with h | h
        · exact ⟨nm, det, List.mem_cons_self _ _, c1, c2, h⟩
        · obtain ⟨a, b, h1, h2, h3, h4⟩ := ih r h
          exact ⟨a, b, List.mem_cons_of_mem _ h1, h2, h3, h4⟩

/-- The companies of `process_results` form a sublist of the manufacturers
keys (each entry contributes at most one record, carrying its key). -/
theorem process_results_companies (d : Deps) :
    ∀ (mans : List (String × MInfo)),
      ((process_results d mans).map Record.company).Sublist (mans.map Prod.fst) := by
  intro mans
  induction mans with
  | nil => rw [process_results]; simp
  | cons p rest ih =>
    obtain ⟨nm, det⟩ := p
    rw [process_results]
    by_cases c1 : det.website = ""
    · rw [if_pos c1]
      exact ih.cons _
    · rw [if_neg c1]
      by_cases c2 : (scrape_manufacturer_website d det.website).1 = ""
      · rw [if_pos c2]
        exact ih.cons _
      · rw [if_neg c2]
        exact ih.cons₂ _

/-! # Claim C9: name uniqueness and exclusion in multi-term discovery -/

/-- C9 (confirmed): every record emitted by multi-term discovery has a
non-empty name outside the caller-supplied excluded set, and names are
pairwise distinct within one run (first-seen wins, via the manufacturers
dict keys).  Instantiating the excluded set with the names of a first run
gives the pagination property: a second run emits no overlapping name. -/
theorem C9_thm (d : Deps) (c : String) (terms : List String) (req : String)
    (mx off : Nat) (ex : List String) :
    (∀ r ∈ general_search d c terms req mx off ex, r.company ≠ "" ∧ r.company ∉ ex) ∧
    ((general_search d c terms req mx off ex).map Record.company).Nodup := by
  unfold general_search
  by_cases hm : (terms_loop d c req mx off ex terms []).isEmpty
  · rw [if_pos hm]
    simp
  · rw [if_neg hm]
    constructor
    · intro r hr
      obtain ⟨nm, det, hmem, _, _, hre⟩ := mem_process_results d _ r hr
      have hk : nm ∈ (terms_loop d c req mx off ex terms []).map Prod.fst :=
        List.mem_map_of_mem _ hmem
      rcases terms_loop_keys d c req mx off ex terms [] nm hk with h | ⟨h1, h2, _⟩
      · simp at h
      · have hco : r.company = nm := by rw [hre]; rfl
        rw [hco]
        exact ⟨h1, h2⟩
    · exact List.Nodup.sublist (process_results_companies d _)
        (terms_loop_keys_nodup d c req mx off ex terms [] (by simp))

/-- C9, witness for `C9_thm` at the concrete environment `d1`. -/
theorem C9_wit :
    rec1 ∈ general_search d1 "IT" ["wood"] "" 1 0 [] ∧
    (rec1.company ≠ "" ∧ rec1.company ∉ ([] : List String)) ∧
    ((general_search d1 "IT" ["wood"] "" 1 0 []).map Record.company).Nodup := by
  have hmem : rec1 ∈ general_search d1 "IT" ["wood"] "" 1 0 [] := by decide
  exact ⟨hmem, (C9_thm d1 "IT" ["wood"] "" 1 0 []).1 rec1 hmem,
    (C9_thm d1 "IT" ["wood"] "" 1 0 []).2⟩

/-! # Claim C5: canonical-name suffix stripping -/

/-- C5, counterexample: the claim says emitted names equal the search-result
title with a trailing " - X" suffix stripped.  The code (line 305) uses
the title verbatim: a title carrying such a suffix is emitted unstripped. -/
theorem C5_cex :
    (general_search d5 "IT" ["wood"] "" 1 0 []).map Record.company =
      ["Acme Woodworks - Official Site"] ∧
    strip_title_suffix "Acme Woodworks - Official Site" = "Acme Woodworks" ∧
    strip_title_suffix "Acme Woodworks - Official Site" ≠ "Acme Woodworks - Official Site" := by
  exact ⟨by decide, by decide, by decide⟩

/-- C5, amended: every emitted record's name is, verbatim (without any
suffix stripping), the title of one organic hit of one of the run's
queries. -/
theorem C5_thm (d : Deps) (c : String) (terms : List String) (req : String)
    (mx off : Nat) (ex : List String) (r : Record)
    (hr : r ∈ general_search d c terms req mx off ex) :
    ∃ term ∈ terms, ∃ organic,
      d.search (pyStrip (term ++ " " ++ req ++ " in " ++ c)) off = some organic ∧
      ∃ hit ∈ organic, r.company = hit.title := by
  unfold general_search at hr
  by_cases hm : (terms_loop d c req mx off ex terms []).isEmpty
  · rw [if_pos hm] at hr
    simp at hr
  · rw [if_neg hm] at hr
    obtain ⟨nm, det, hmem, _, _, hre⟩ := mem_process_results d _ r hr
    have hk : nm ∈ (terms_loop d c req mx off ex terms []).map Prod.fst :=
      List.mem_map_of_mem _ hmem
    rcases terms_loop_keys d c req mx off ex terms [] nm hk with h | ⟨_, _, t, ht, organic, hs, w, hw, he⟩
    · simp at h
    · refine ⟨t, ht, organic, hs, w, hw, ?_⟩
      rw [hre]
      exact he

/-- C5, witness for `C5_thm` at the concrete environment `d5`. -/
theorem C5_wit :
    rec5 ∈ general_search d5 "IT" ["wood"] "" 1 0 [] ∧
    (∃ term ∈ ["wood"], ∃ organic,
      d5.search (pyStrip (term ++ " " ++ "" ++ " in " ++ "IT")) 0 = some organic ∧
      ∃ hit ∈ organic, rec5.company = hit.title) := by
  have hmem : rec5 ∈ general_search d5 "IT" ["wood"] "" 1 0 [] := by decide
  exact ⟨hmem, C5_thm d5 "IT" ["wood"] "" 1 0 [] rec5 hmem⟩

/-! # Claim C2: emission conditions -/

/-- C2, counterexample: the claim says every emitted record's website is
non-blacklisted.  The blacklist (line 308) is applied to the original
search-hit link only; the resolved official website (line 317) is stored
and scraped unchecked, so a record whose website contains `alibaba.com`
is emitted. -/
theorem C2_cex :
    (general_search d2 "IT" ["wood"] "" 1 0 []).map
        (fun r => (r.website, is_blacklisted_url r.website)) =
      [("https://www.alibaba.com/acme", true)] := by
  decide

/-- C2, amended: in both pipeline flows a record is only emitted when its
website is non-empty and the scrape of that website returned non-empty
aggregate content; the blacklist filter applies only to the initial
search-hit link of multi-term discovery, not to the resolved official
website stored in the record. -/
theorem C2_thm (d : Deps) (c : String) (terms : List String) (req : String)
    (mx off : Nat) (ex : List String) (name : String) :
    (∀ r ∈ general_search d c terms req mx off ex,
      r.website ≠ "" ∧ (scrape_manufacturer_website d r.website).1 ≠ "") ∧
    (∀ r : Record, specific_company_search d name = some r →
      r.website ≠ "" ∧ (scrape_manufacturer_website d r.website).1 ≠ "") := by
  constructor
  · intro r hr
    unfold general_search at hr
    by_cases hm : (terms_loop d c req mx off ex terms []).isEmpty
    · rw [if_pos hm] at hr
      simp at hr
    · rw [if_neg hm] at hr
      obtain ⟨nm, det, _, h2, h3, hre⟩ := mem_process_results d _ r hr
      have hw : r.website = det.website := by rw [hre]; rfl
      rw [hw]
      exact ⟨h2, h3⟩
  · intro r hr
    unfold specific_company_search at hr
    by_cases c0 : name = ""
    · rw [if_pos c0] at hr
      simp at hr
    · rw [if_neg c0] at hr
      by_cases c1 : (extract_manufacturer_info d name).2.getD "" = ""
      · rw [if_pos c1] at hr
        simp at hr
      · rw [if_neg c1] at hr
        by_cases c2 : (scrape_manufacturer_website d ((extract_manufacturer_info d name).2.getD "")).1 = ""
        · rw [if_pos c2] at hr
          simp at hr
        · rw [if_neg c2] at hr
          injection hr with hr
          have hw : r.website = (extract_manufacturer_info d name).2.getD "" := by rw [← hr]
          rw [hw]
          exact ⟨c1, c2⟩

/-- C2, witness for `C2_thm` at the concrete environment `d2`, whose
emitted record carries a blacklisted website yet satisfies both emission
conditions. -/
theorem C2_wit :
    rec2 ∈ general_search d2 "IT" ["wood"] "" 1 0 [] ∧
    specific_company_search d2 "Acme" = some rec2 ∧
    (rec2.website ≠ "" ∧ (scrape_manufacturer_website d2 rec2.website).1 ≠ "") := by
  have hmem : rec2 ∈ general_search d2 "IT" ["wood"] "" 1 0 [] := by decide
  have hspec : specific_company_search d2 "Acme" = some rec2 := by decide
  exact ⟨hmem, hspec, (C2_thm d2 "IT" ["wood"] "" 1 0 [] "Acme").2 rec2 hspec⟩

/-! # Claim C1: primary contact vs extraction order -/

theorem mem_extract_emails (d : Deps) (hd : SetEnum d.enum) (html x : String) :
    x ∈ (extract_contact_details d html).1 ↔ x ∈ contact_emails_content d html :=
  hd.mem (nodup_contact_emails_content d html)

theorem mem_extract_phones (d : Deps) (hd : SetEnum d.enum) (html x : String) :
    x ∈ (extract_contact_details d html).2 ↔ x ∈ contact_phones_content html :=
  hd.mem (nodup_contact_phones_content html)

/-- The per-page fold of the scraper and the extraction-order folds stay
membership-equal and duplicate-free: the scraper inserts the enumerated
per-page lists, the extraction-order folds insert the underlying set
contents, and enumeration preserves membership. -/
theorem fold_scrape_mem (d : Deps) (hd : SetEnum d.enum) :
    ∀ (links : List (String × String)) (acc : List (String × String) × List String × List String)
      (tE tP : List String),
      acc.2.1.Nodup → tE.Nodup → (∀ x, x ∈ acc.2.1 ↔ x ∈ tE) →
      acc.2.2.Nodup → tP.Nodup → (∀ x, x ∈ acc.2.2 ↔ x ∈ tP) →
      ((links.foldl (scrape_page_fold d) acc).2.1.Nodup ∧
       (links.foldl (site_extraction_email_step d) tE).Nodup ∧
       (∀ x, x ∈ (links.foldl (scrape_page_fold d) acc).2.1 ↔
          x ∈ links.foldl (site_extraction_email_step d) tE) ∧
       (links.foldl (scrape_page_fold d) acc).2.2.Nodup ∧
       (links.foldl (site_extraction_phone_step d) tP).Nodup ∧
       (∀ x, x ∈ (links.foldl (scrape_page_fold d) acc).2.2 ↔
          x ∈ links.foldl (site_extraction_phone_step d) tP)) := by
  intro links
  induction links with
  | nil =>
    intro acc tE tP h1 h2 h3 h4 h5 h6
    exact ⟨h1, h2, h3, h4, h5, h6⟩
  | cons kl rest ih =>
    intro acc tE tP h1 h2 h3 h4 h5 h6
    rw [List.foldl_cons, List.foldl_cons, List.foldl_cons]
    by_cases hp : d.fetch kl.2 = ""
    · have e1 : scrape_page_fold d acc kl = acc := by
        unfold scrape_page_fold
        rw [if_pos hp]
      have e2 : site_extraction_email_step d tE kl = tE := by
        unfold site_extraction_email_step
        rw [if_pos hp]
      have e3 : site_extraction_phone_step d tP kl = tP := by
        unfold site_extraction_phone_step
        rw [if_pos hp]
      rw [e1, e2, e3]
      exact ih acc tE tP h1 h2 h3 h4 h5 h6
    · have e1 : scrape_page_fold d acc kl =
          (acc.1 ++ [(pyCapitalize kl.1, extract_main_content d (d.fetch kl.2))],
           pyExtend acc.2.1 (extract_contact_details d (d.fetch kl.2)).1,
           pyExtend acc.2.2 (extract_contact_details d (d.fetch kl.2)).2) := by
        unfold scrape_page_fold
        rw [if_neg hp]
      have e2 : site_extraction_email_step d tE kl =
          pyExtend tE (contact_emails_content d (d.fetch kl.2)) := by
        unfold site_extraction_email_step
        rw [if_neg hp]
      have e3 : site_extraction_phone_step d tP kl =
          pyExtend tP (contact_phones_content (d.fetch kl.2)) := by
        unfold site_extraction_phone_step
        rw [if_neg hp]
      rw [e1, e2, e3]
      refine ih _ _ _ ?_ ?_ ?_ ?_ ?_ ?_
      · exact nodup_pyExtend _ _ h1
      · exact nodup_pyExtend _ _ h2
      · intro x
        rw [mem_pyExtend, mem_pyExtend, h3 x, mem_extract_emails d hd (d.fetch kl.2) x]
      · exact nodup_pyExtend _ _ h4
      · exact nodup_pyExtend _ _ h5
      · intro x
        rw [mem_pyExtend, mem_pyExtend, h6 x, mem_extract_phones d hd (d.fetch kl.2) x]

/-- The aggregate contact lists returned by the scraper are permutations of
the extraction-order lists (same duplicate-free content, enumeration
order unspecified). -/
theorem scrape_perm_extraction (d : Deps) (hd : SetEnum d.enum) (url : String) :
    (scrape_manufacturer_website d url).2.1.Perm (site_extraction_emails d url) ∧
    (scrape_manufacturer_website d url).2.2.Perm (site_extraction_phones d url) := by
  by_cases hc : d.fetch url = ""
  · constructor
    · simp [scrape_manufacturer_website, site_extraction_emails, hc]
    · simp [scrape_manufacturer_website, site_extraction_phones, hc]
  · have key := fold_scrape_mem d hd (find_relevant_links d (d.fetch url) url scrape_keywords)
      (if (extract_contact_details d (d.fetch url)).1 = [] then
        [("Homepage", extract_main_content d (d.fetch url))]
       else
        [("Homepage", extract_main_content d (d.fetch url)),
         ("Contact Details", "Emails: " ++ pyJoin ", " (extract_contact_details d (d.fetch url)).1)],
       pyExtend [] (extract_contact_details d (d.fetch url)).1,
       pyExtend [] (extract_contact_details d (d.fetch url)).2)
      (pyExtend [] (contact_emails_content d (d.fetch url)))
      (pyExtend [] (contact_phones_content (d.fetch url)))
      (nodup_pyExtend _ _ List.nodup_nil) (nodup_pyExtend _ _ List.nodup_nil)
      (by
        intro x
        rw [mem_pyExtend, mem_pyExtend, mem_extract_emails d hd (d.fetch url) x])
      (nodup_pyExtend _ _ List.nodup_nil) (nodup_pyExtend _ _ List.nodup_nil)
      (by
        intro x
        rw [mem_pyExtend, mem_pyExtend, mem_extract_phones d hd (d.fetch url) x])
    obtain ⟨kF, kE, kM, kFp, kEp, kMp⟩ := key
    constructor
    · have eS : (scrape_manufacturer_website d url).2.1 =
          d.enum ((find_relevant_links d (d.fetch url) url scrape_keywords).foldl
            (scrape_page_fold d)
            (if (extract_contact_details d (d.fetch url)).1 = [] then
              [("Homepage", extract_main_content d (d.fetch url))]
             else
              [("Homepage", extract_main_content d (d.fetch url)),
               ("Contact Details", "Emails: " ++ pyJoin ", " (extract_contact_details d (d.fetch url)).1)],
             pyExtend [] (extract_contact_details d (d.fetch url)).1,
             pyExtend [] (extract_contact_details d (d.fetch url)).2)).2.1 := by
        unfold scrape_manufacturer_website
        rw [if_neg hc]
      have eX : site_extraction_emails d url =
          (find_relevant_links d (d.fetch url) url scrape_keywords).foldl
            (site_extraction_email_step d)
            (pyExtend [] (contact_emails_content d (d.fetch url))) := by
        unfold site_extraction_emails
        rw [if_neg hc]
      rw [eS, eX]
      refine (List.perm_ext_iff_of_nodup (hd.nodup kF) kE).2 ?_
      intro x
      exact ((hd.mem kF).trans (kM x))
    · have eS : (scrape_manufacturer_website d url).2.2 =
          d.enum ((find_relevant_links d (d.fetch url) url scrape_keywords).foldl
            (scrape_page_fold d)
            (if (extract_contact_details d (d.fetch url)).1 = [] then
              [("Homepage", extract_main_content d (d.fetch url))]
             else
              [("Homepage", extract_main_content d (d.fetch url)),
               ("Contact Details", "Emails: " ++ pyJoin ", " (extract_contact_details d (d.fetch url)).1)],
             pyExtend [] (extract_contact_details d (d.fetch url)).1,
             pyExtend [] (extract_contact_details d (d.fetch url)).2)).2.2 := by
        unfold scrape_manufacturer_website
        rw [if_neg hc]
      have eX : site_extraction_phones d url =
          (find_relevant_links d (d.fetch url) url scrape_keywords).foldl
            (site_extraction_phone_step d)
            (pyExtend [] (contact_phones_content (d.fetch url))) := by
        unfold site_extraction_phones
        rw [if_neg hc]
      rw [eS, eX]
      refine (List.perm_ext_iff_of_nodup (hd.nodup kFp) kEp).2 ?_
      intro x
      exact ((hd.mem kFp).trans (kMp x))

/-- C1, counterexample: the claim says the primary email of an emitted
record is the first email discovered in extraction order (homepage before
secondary pages), `info@acme.com` in the scenario.  The code takes
`all_emails[0]` of `list(set(...))` (lines 129-150, 367), whose order is
the arbitrary set-iteration order, not extraction order: under the
admissible enumeration of `d1` (reversal), the scenario site's record
carries primary email `sales@acme.com` although the extraction-order
list is `[info@acme.com, sales@acme.com]`. -/
theorem C1_cex :
    SetEnum d1.enum ∧
    (general_search d1 "IT" ["wood"] "" 1 0 []).map Record.website = ["https://acme.example"] ∧
    (general_search d1 "IT" ["wood"] "" 1 0 []).map Record.email = [some "sales@acme.com"] ∧
    site_extraction_emails d1 "https://acme.example" = ["info@acme.com", "sales@acme.com"] := by
  exact ⟨fun s _ => List.reverse_perm s, by decide, by decide, by decide⟩

/-- C1, amended: for every emitted record, the primary email is the head of
the record's aggregate email list — some element of the email set when it
is non-empty, but not necessarily the first in extraction order, since
the aggregate list is only a permutation of the extraction-order list
(the set-iteration order is arbitrary); the primary phone is the head of
the aggregate phone list when non-empty, and falls back to the
LinkedIn-derived phone otherwise.  In the scenario, the aggregate email
set still equals the extraction set as a set. -/
theorem C1_thm (d : Deps) (hd : SetEnum d.enum) (c : String) (terms : List String)
    (req : String) (mx off : Nat) (ex : List String) (r : Record)
    (hr : r ∈ general_search d c terms req mx off ex) :
    r.email = r.all_emails.head? ∧
    (r.all_phones ≠ [] → r.phone = r.all_phones.head?) ∧
    (r.all_phones = [] → r.phone = (linkedin_phone_location d r.linkedin).1) ∧
    r.all_emails.Perm (site_extraction_emails d r.website) ∧
    r.all_phones.Perm (site_extraction_phones d r.website) := by
  unfold general_search at hr
  by_cases hm : (terms_loop d c req mx off ex terms []).isEmpty
  · rw [if_pos hm] at hr
    simp at hr
  · rw [if_neg hm] at hr
    obtain ⟨nm, det, _, _, _, hre⟩ := mem_process_results d _ r hr
    subst hre
    refine ⟨rfl, ?_, ?_, ?_, ?_⟩
    · intro h
      have hb : (build_record d nm det).all_phones =
          (scrape_manufacturer_website d det.website).2.2 := rfl
      cases hss : (scrape_manufacturer_website d det.website).2.2 with
      | nil =>
        rw [hb, hss] at h
        exact absurd rfl h
      | cons p ps =>
        have h1 : (build_record d nm det).phone = some p := by
          show (match (scrape_manufacturer_website d det.website).2.2 with
                | p :: _ => some p
                | [] => (linkedin_phone_location d det.linkedin).1) = some p
          rw [hss]
        have h2 : (build_record d nm det).all_phones.head? = some p := by
          rw [hb, hss]
          rfl
        rw [h1, h2]
    · intro h
      have hb : (scrape_manufacturer_website d det.website).2.2 = [] := h
      have h1 : (build_record d nm det).phone = (linkedin_phone_location d det.linkedin).1 := by
        show (match (scrape_manufacturer_website d det.website).2.2 with
              | p :: _ => some p
              | [] => (linkedin_phone_location d det.linkedin).1) =
            (linkedin_phone_location d det.linkedin).1
        rw [hb]
      have h2 : (build_record d nm det).linkedin = det.linkedin := rfl
      rw [h1, h2]
    · have hw : (build_record d nm det).website = det.website := rfl
      have ha : (build_record d nm det).all_emails =
          (scrape_manufacturer_website d det.website).2.1 := rfl
      rw [ha, hw]
      exact (scrape_perm_extraction d hd det.website).1
    · have hw : (build_record d nm det).website = det.website := rfl
      have ha : (build_record d nm det).all_phones =
          (scrape_manufacturer_website d det.website).2.2 := rfl
      rw [ha, hw]
      exact (scrape_perm_extraction d hd det.website).2

/-- C1, witness for `C1_thm` at the scenario environment `d1` and its
emitted record `rec1`. -/
theorem C1_wit :
    SetEnum d1.enum ∧
    rec1 ∈ general_search d1 "IT" ["wood"] "" 1 0 [] ∧
    (rec1.email = rec1.all_emails.head? ∧
     (rec1.all_phones ≠ [] → rec1.phone = rec1.all_phones.head?) ∧
     (rec1.all_phones = [] → rec1.phone = (linkedin_phone_location d1 rec1.linkedin).1) ∧
     rec1.all_emails.Perm (site_extraction_emails d1 rec1.website) ∧
     rec1.all_phones.Perm (site_extraction_phones d1 rec1.website)) := by
  have hd : SetEnum d1.enum := fun s _ => List.reverse_perm s
  have hmem : rec1 ∈ general_search d1 "IT" ["wood"] "" 1 0 [] := by decide
  exact ⟨hd, hmem, C1_thm d1 hd "IT" ["wood"] "" 1 0 [] rec1 hmem⟩
